import Mathlib

/-!
Shallow embedding of the hotel-rooms operational core:
the room status routes, the cleaning-session timer routes, the
WebSocket broadcast fan-out, and the role middleware, as implemented in
`server/replitAuth.ts` (routes + `DatabaseStorage`), `shared/schema.ts`
(column types and defaults), and the client mutation bodies in
`client/src/components/timer-widget.tsx` / `room-card.tsx`.

Timestamps are modelled as epoch milliseconds (`Int`, matching JS
`Date.getTime()`); the `paused_time` / `total_time` columns are seconds
(`Int`). Postgres enum columns enforce membership in their enum set; a
write of a value outside the set is a database error. The `status`
column of `cleaning_sessions` is a plain varchar, so it is a free
`String` here, exactly as in the schema.
-/

namespace HotelOps

/-- Values of the `room_status` Postgres enum declared in `shared/schema.ts`
(`pgEnum('room_status', ['dirty', 'cleaning', 'inspection', 'clean', 'occupied'])`). -/
def pgRoomStatuses : List String := ["dirty", "cleaning", "inspection", "clean", "occupied"]

/-- Statuses accepted by the zod validator inside `PATCH /api/rooms/:id/status`
(`z.enum(['dirty', 'clean', 'occupied', 'cleaning', 'inspection', 'approved'])`). -/
def zodRoomStatuses : List String := ["dirty", "clean", "occupied", "cleaning", "inspection", "approved"]

/-- A row of the `users` table (the fields the server logic reads). -/
structure User where
  id : String
  email : Option String
  role : String
  deriving DecidableEq, Repr

/-- A row of the `rooms` table. -/
structure Room where
  id : String
  number : String
  floor : Int
  type : String
  status : String
  assignedTo : Option String
  lastCleaned : Option Int
  priority : String
  createdAt : Int
  updatedAt : Int
  deriving DecidableEq, Repr

/-- A row of the `cleaning_sessions` table. `pausedTime` and `totalTime`
are seconds; `startTime`, `endTime`, `createdAt` are epoch milliseconds. -/
structure CleaningSession where
  id : String
  roomId : String
  housekeeperId : String
  startTime : Int
  endTime : Option Int
  pausedTime : Option Int
  totalTime : Option Int
  status : String
  createdAt : Int
  deriving DecidableEq, Repr

/-- A parsed `insertCleaningSessionSchema` body for `POST /api/cleaning-sessions`.
Columns with a database default (`pausedTime`, `status`) are optional in the
insert schema; `none` means the column default applies at insert time. -/
structure InsertCleaningSession where
  roomId : String
  housekeeperId : String
  startTime : Int
  endTime : Option Int
  pausedTime : Option Int
  totalTime : Option Int
  status : Option String
  deriving DecidableEq, Repr

/-- A `Partial<CleaningSession>` body for `PATCH /api/cleaning-sessions/:id`:
each present field overwrites the stored column. -/
structure SessionUpdates where
  startTime : Option Int
  endTime : Option Int
  pausedTime : Option Int
  totalTime : Option Int
  status : Option String
  deriving DecidableEq, Repr

/-- The `ws` readyState of one connected socket. -/
inductive WSReadyState where
  | connecting
  | opened
  | closing
  | closed
  deriving DecidableEq, Repr

/-- One entry of the `wsClients` set, tagged with an identifier so that
deliveries can be attributed to subscriptions. -/
structure WSClient where
  cid : Nat
  readyState : WSReadyState
  deriving DecidableEq, Repr

/-- Payload of a broadcast envelope, per the `broadcast` call sites. -/
inductive WSData where
  | roomStatus (roomId : String) (status : String) (room : Option Room)
  | timer (action : String) (session : Option CleaningSession)
  deriving DecidableEq, Repr

/-- A `WSMessage` envelope `{type, data}`. -/
structure WSMessage where
  type : String
  data : WSData
  deriving DecidableEq, Repr

/-- Outcome of an HTTP route, by status code family used in the routes. -/
inductive HttpResult (α : Type) where
  | ok (value : α)
  | badRequest
  | unauthorized
  | forbidden
  | serverError
  deriving DecidableEq, Repr

/-- The mutable server-side records the modelled routes touch. -/
structure ServerState where
  rooms : List Room
  sessions : List CleaningSession
  deriving DecidableEq, Repr

/-- The token claims object on `req.user.claims`. -/
structure TokenClaims where
  sub : Option String
  role : Option String
  email : Option String
  deriving DecidableEq, Repr

/-- Outcome of the `requireRole` middleware. -/
inductive AuthDecision where
  | allowed (u : User)
  | unauthorized
  | forbidden
  deriving DecidableEq, Repr

/-- The `broadcast` function: send the message to every client whose
`readyState` is `OPEN`; the result lists the deliveries as
(client id, message) pairs. -/
def broadcast (clients : List WSClient) (msg : WSMessage) : List (Nat × WSMessage) :=
  clients.filterMap fun c =>
    if c.readyState = WSReadyState.opened then some (c.cid, msg) else none

/-- Deliveries produced by a list of emitted broadcast messages. -/
def deliveries (clients : List WSClient) (msgs : List WSMessage) : List (Nat × WSMessage) :=
  msgs.flatMap (broadcast clients)

/-- The `requireRole(...allowedRoles)` middleware: resolve
`req.user?.claims?.sub`, load the durable user record, and compare its
stored `role` against the allowed set. The role claimed in the token is
never consulted. -/
def requireRole (allowedRoles : List String) (claims : Option TokenClaims)
    (users : List User) : AuthDecision :=
  match claims.bind (fun c => c.sub) with
  | none => AuthDecision.unauthorized
  | some uid =>
    match users.find? (fun u => u.id == uid) with
    | none => AuthDecision.forbidden
    | some u =>
      if u.role ∈ allowedRoles then AuthDecision.allowed u else AuthDecision.forbidden

/-- `DatabaseStorage.updateRoomStatus`: `UPDATE rooms SET status, updated_at
WHERE id = roomId RETURNING *`. The bound status value must belong to the
`room_status` enum or Postgres rejects the statement (a thrown error);
when no row matches, the update succeeds with an empty returning set and
`room` is `undefined`. -/
def dbUpdateRoomStatus (rooms : List Room) (roomId status : String) (now : Int) :
    Except Unit (Option Room × List Room) :=
  if status ∈ pgRoomStatuses then
    Except.ok
      ((rooms.find? (fun r => r.id == roomId)).map
          (fun r => { r with status := status, updatedAt := now }),
        rooms.map fun r =>
          if r.id == roomId then { r with status := status, updatedAt := now } else r)
  else Except.error ()

/-- Body of the `PATCH /api/rooms/:id/status` route after the role
middleware: zod-validate the target status, run the update, broadcast one
`room_status_update` event on success, and answer 500 on a thrown error.
The returned triple is (HTTP outcome, rooms afterwards, emitted events). -/
def patchRoomStatusHandler (rooms : List Room) (id status : String) (now : Int) :
    HttpResult (Option Room) × List Room × List WSMessage :=
  if status ∈ zodRoomStatuses then
    match dbUpdateRoomStatus rooms id status now with
    | Except.ok (room, rooms') =>
      (HttpResult.ok room, rooms',
        [{ type := "room_status_update", data := WSData.roomStatus id status room }])
    | Except.error _ => (HttpResult.serverError, rooms, [])
  else (HttpResult.badRequest, rooms, [])

/-- The full `PATCH /api/rooms/:id/status` route:
`requireRole("manager", "supervisor")` then the handler body. A rejected
request never reaches the handler. -/
def patchRoomStatusRoute (claims : Option TokenClaims) (users : List User)
    (rooms : List Room) (id status : String) (now : Int) :
    HttpResult (Option Room) × List Room × List WSMessage :=
  match requireRole ["manager", "supervisor"] claims users with
  | AuthDecision.allowed _ => patchRoomStatusHandler rooms id status now
  | AuthDecision.unauthorized => (HttpResult.unauthorized, rooms, [])
  | AuthDecision.forbidden => (HttpResult.forbidden, rooms, [])

/-- The row created by `DatabaseStorage.startCleaningSession` (a plain
insert): column defaults `paused_time = 0` and `status = 'active'` apply
to omitted fields; `created_at` defaults to now. -/
def mkSession (d : InsertCleaningSession) (newId : String) (now : Int) : CleaningSession :=
  { id := newId
    roomId := d.roomId
    housekeeperId := d.housekeeperId
    startTime := d.startTime
    endTime := d.endTime
    pausedTime := some (d.pausedTime.getD 0)
    totalTime := d.totalTime
    status := d.status.getD "active"
    createdAt := now }

/-- `DatabaseStorage.startCleaningSession`: insert the row and return it.
There is no lookup of any existing session for the room. -/
def startCleaningSession (sessions : List CleaningSession) (d : InsertCleaningSession)
    (newId : String) (now : Int) : CleaningSession × List CleaningSession :=
  (mkSession d newId now, sessions ++ [mkSession d newId now])

/-- Body of `POST /api/cleaning-sessions`: insert the session, move the
room to `cleaning`, broadcast one `timer_update` start event, return the
new session. No conflict check against existing sessions is performed. -/
def postCleaningSessionHandler (st : ServerState) (body : InsertCleaningSession)
    (newId : String) (now : Int) :
    HttpResult CleaningSession × ServerState × List WSMessage :=
  let (sess, sessions') := startCleaningSession st.sessions body newId now
  match dbUpdateRoomStatus st.rooms body.roomId "cleaning" now with
  | Except.ok (_, rooms') =>
    (HttpResult.ok sess, { rooms := rooms', sessions := sessions' },
      [{ type := "timer_update", data := WSData.timer "start" (some sess) }])
  | Except.error _ =>
    (HttpResult.serverError, { rooms := st.rooms, sessions := sessions' }, [])

/-- Application of a `Partial<CleaningSession>` `set` clause to one row. -/
def applySessionUpdates (s : CleaningSession) (u : SessionUpdates) : CleaningSession :=
  { s with
    startTime := match u.startTime with | some v => v | none => s.startTime
    endTime := match u.endTime with | some v => some v | none => s.endTime
    pausedTime := match u.pausedTime with | some v => some v | none => s.pausedTime
    totalTime := match u.totalTime with | some v => some v | none => s.totalTime
    status := match u.status with | some v => v | none => s.status }

/-- `DatabaseStorage.updateCleaningSession`: `UPDATE cleaning_sessions SET
updates WHERE id = sessionId RETURNING *`. No precondition on the current
status of the row. -/
def updateCleaningSession (sessions : List CleaningSession) (sid : String)
    (u : SessionUpdates) : Option CleaningSession × List CleaningSession :=
  ((sessions.find? (fun s => s.id == sid)).map (fun s => applySessionUpdates s u),
    sessions.map fun s => if s.id == sid then applySessionUpdates s u else s)

/-- Body of `PATCH /api/cleaning-sessions/:id`: apply the updates
wholesale, broadcast one `timer_update` update event, return the row
(`undefined` when the id matches nothing — still HTTP 200). -/
def patchCleaningSessionHandler (st : ServerState) (sid : String) (u : SessionUpdates) :
    HttpResult (Option CleaningSession) × ServerState × List WSMessage :=
  let (sess, sessions') := updateCleaningSession st.sessions sid u
  (HttpResult.ok sess, { rooms := st.rooms, sessions := sessions' },
    [{ type := "timer_update", data := WSData.timer "update" sess }])

/-- Elapsed whole seconds between two epoch-millisecond instants:
`Math.floor((now.getTime() - start.getTime()) / 1000)`. -/
def elapsedSeconds (nowMs startMs : Int) : Int :=
  Int.fdiv (nowMs - startMs) 1000

/-- The client-side total-time computation of `completeCleaningMutation`
(`timer-widget.tsx` / `room-card.tsx`):
`Math.floor((now - start) / 1000) + (session.pausedTime || 0)`. -/
def clientTotalTime (nowMs startMs : Int) (pausedTime : Option Int) : Int :=
  elapsedSeconds nowMs startMs + pausedTime.getD 0

/-- The PATCH body `completeCleaningMutation` sends for a session the
client has read: status `completed`, endTime now, totalTime computed. -/
def completeRequestBody (s : CleaningSession) (nowMs : Int) : SessionUpdates :=
  { startTime := none
    endTime := some nowMs
    pausedTime := none
    totalTime := some (clientTotalTime nowMs s.startTime s.pausedTime)
    status := some "completed" }

/-- The PATCH body `pauseCleaningMutation` sends (and, symmetrically, a
resume request): only the status field, no timing fields. -/
def statusOnlyUpdate (st : String) : SessionUpdates :=
  { startTime := none, endTime := none, pausedTime := none, totalTime := none,
    status := some st }

/-- Fold step realising `ORDER BY created_at DESC LIMIT 1`: keep the row
with the later `created_at`. -/
def pickLatest (acc : Option CleaningSession) (s : CleaningSession) : Option CleaningSession :=
  match acc with
  | none => some s
  | some t => if t.createdAt < s.createdAt then some s else some t

/-- `DatabaseStorage.getActiveCleaningSession`: rows of the room whose
status is `active` or `paused`, ordered by `created_at` descending,
first row or `undefined`. -/
def getActiveCleaningSession (sessions : List CleaningSession) (roomId : String) :
    Option CleaningSession :=
  (sessions.filter fun s =>
      s.roomId == roomId && (s.status == "active" || s.status == "paused")).foldl
    pickLatest none

/-- The server state reached by the client flow start → pause → resume on
a fresh session id: the start request at instant `t0`, then the pause
PATCH (`{status: "paused"}`), then the resume PATCH
(`{status: "active"}`). Neither PATCH carries any timing field. -/
def afterStartPauseResume (st : ServerState) (body : InsertCleaningSession)
    (newId : String) (t0 : Int) : ServerState :=
  (patchCleaningSessionHandler
    ((patchCleaningSessionHandler
      ((postCleaningSessionHandler st body newId t0).2.1) newId
      (statusOnlyUpdate "paused")).2.1) newId
    (statusOnlyUpdate "active")).2.1

/-! Concrete fixtures used to evaluate the verification theorems on
explicit inputs. -/

/-- A sample room in status `dirty`. -/
def exRoom : Room :=
  { id := "r1", number := "101", floor := 1, type := "standard", status := "dirty",
    assignedTo := none, lastCleaned := none, priority := "media",
    createdAt := 0, updatedAt := 5 }

/-- The sample room already in status `clean`. -/
def exRoomClean : Room := { exRoom with status := "clean" }

/-- A manager user record. -/
def exUserManager : User := { id := "u1", email := none, role := "manager" }

/-- The user-table fixture. -/
def exUsers : List User := [exUserManager]

/-- Token claims resolving to the manager user (the token itself claims no
role). -/
def exClaims : TokenClaims := { sub := some "u1", role := none, email := none }

/-- Three subscriptions: two open sockets and one already closed. -/
def exClients : List WSClient :=
  [{ cid := 1, readyState := WSReadyState.opened },
    { cid := 2, readyState := WSReadyState.closed },
    { cid := 3, readyState := WSReadyState.opened }]

/-- An active cleaning session on room `r1`. -/
def exSessionActive : CleaningSession :=
  { id := "s1", roomId := "r1", housekeeperId := "h1", startTime := 0,
    endTime := none, pausedTime := some 0, totalTime := none,
    status := "active", createdAt := 0 }

/-- A completed cleaning session on room `r1`. -/
def exSessionDone : CleaningSession :=
  { id := "s1", roomId := "r1", housekeeperId := "h1", startTime := 0,
    endTime := some 100000, pausedTime := some 0, totalTime := some 100,
    status := "completed", createdAt := 0 }

/-- The start body `startCleaningMutation` sends for room `r1`. -/
def exBodyStart : InsertCleaningSession :=
  { roomId := "r1", housekeeperId := "h2", startTime := 1000, endTime := none,
    pausedTime := none, totalTime := none, status := some "active" }

/-- Server state with the sample room and an active session on it. -/
def exStateActive : ServerState := { rooms := [exRoom], sessions := [exSessionActive] }

/-- Server state holding only the completed session. -/
def exStateDone : ServerState := { rooms := [], sessions := [exSessionDone] }

/-- Server state with no sessions at all. -/
def exStateEmpty : ServerState := { rooms := [exRoom], sessions := [] }

/-! Helper lemmas shared by several verification theorems. -/

theorem broadcast_eq_map_filter (clients : List WSClient) (msg : WSMessage) :
    broadcast clients msg =
      (clients.filter fun c => c.readyState == WSReadyState.opened).map
        fun c => (c.cid, msg) := by
  induction clients with
  | nil => rfl
  | cons c cs ih =>
    by_cases h : c.readyState = WSReadyState.opened <;>
      simp [broadcast, List.filterMap_cons, List.filter_cons, h] <;>
      simpa [broadcast] using ih

theorem applySessionUpdates_id (s : CleaningSession) (u : SessionUpdates) :
    (applySessionUpdates s u).id = s.id := rfl

theorem find_append_fresh (l : List CleaningSession) (m : CleaningSession) (sid : String)
    (h : ∀ x ∈ l, x.id ≠ sid) (hm : m.id = sid) :
    (l ++ [m]).find? (fun s => s.id == sid) = some m := by
  subst hm
  induction l with
  | nil => simp [List.find?]
  | cons x xs ih =>
    have hx : (x.id == m.id) = false := by
      simpa using h x (List.mem_cons_self x xs)
    simp only [List.cons_append, List.find?_cons, hx]
    exact ih fun y hy => h y (List.mem_cons_of_mem _ hy)

theorem sessionsMap_id_of_ne (l : List CleaningSession) (nid : String)
    (u : SessionUpdates) (h : ∀ x ∈ l, x.id ≠ nid) :
    (l.map fun s => if s.id == nid then applySessionUpdates s u else s) = l := by
  induction l with
  | nil => rfl
  | cons x xs ih =>
    have hx : x.id ≠ nid := h x (List.mem_cons_self x xs)
    have hxs := ih fun y hy => h y (List.mem_cons_of_mem _ hy)
    simp only [List.map_cons]
    rw [if_neg (by simpa using hx), hxs]

theorem updateCleaningSession_fresh (l : List CleaningSession) (m : CleaningSession)
    (sid : String) (u : SessionUpdates) (h : ∀ x ∈ l, x.id ≠ sid) (hm : m.id = sid) :
    updateCleaningSession (l ++ [m]) sid u =
      (some (applySessionUpdates m u), l ++ [applySessionUpdates m u]) := by
  subst hm
  unfold updateCleaningSession
  rw [find_append_fresh l m m.id h rfl, List.map_append, sessionsMap_id_of_ne l m.id u h]
  simp

theorem patch_fresh (stx : ServerState) (l : List CleaningSession) (m : CleaningSession)
    (sid : String) (u : SessionUpdates) (hl : stx.sessions = l ++ [m])
    (h : ∀ x ∈ l, x.id ≠ sid) (hm : m.id = sid) :
    (patchCleaningSessionHandler stx sid u).2.1.sessions = l ++ [applySessionUpdates m u] ∧
    (patchCleaningSessionHandler stx sid u).2.1.sessions.find? (fun x => x.id == sid) =
      some (applySessionUpdates m u) := by
  have hupd := updateCleaningSession_fresh l m sid u h hm
  have hsess : (patchCleaningSessionHandler stx sid u).2.1.sessions =
      l ++ [applySessionUpdates m u] := by
    show (updateCleaningSession stx.sessions sid u).2 = _
    rw [hl, hupd]
  refine ⟨hsess, ?_⟩
  rw [hsess]
  exact find_append_fresh l _ sid h (by rw [applySessionUpdates_id, hm])

theorem roomsMap_id_of_ne (l : List Room) (rid status : String) (now : Int)
    (h : ∀ r ∈ l, r.id ≠ rid) :
    (l.map fun r => if r.id == rid then { r with status := status, updatedAt := now } else r)
      = l := by
  induction l with
  | nil => rfl
  | cons x xs ih =>
    have hx : x.id ≠ rid := h x (List.mem_cons_self x xs)
    have hxs := ih fun y hy => h y (List.mem_cons_of_mem _ hy)
    simp only [List.map_cons]
    rw [if_neg (by simpa using hx), hxs]

theorem room_find_none_of_ne (l : List Room) (rid : String)
    (h : ∀ r ∈ l, r.id ≠ rid) :
    l.find? (fun r => r.id == rid) = none := by
  induction l with
  | nil => rfl
  | cons x xs ih =>
    have hx : (x.id == rid) = false := by
      simpa using h x (List.mem_cons_self x xs)
    simp only [List.find?_cons, hx]
    exact ih fun y hy => h y (List.mem_cons_of_mem _ hy)

theorem foldl_pickLatest_some (l : List CleaningSession) (t : CleaningSession) :
    ∃ s, l.foldl pickLatest (some t) = some s ∧ (s = t ∨ s ∈ l) ∧
      t.createdAt ≤ s.createdAt ∧ ∀ x ∈ l, x.createdAt ≤ s.createdAt := by
  induction l generalizing t with
  | nil => exact ⟨t, rfl, Or.inl rfl, le_refl _, by simp⟩
  | cons x xs ih =>
    by_cases hlt : t.createdAt < x.createdAt
    · obtain ⟨s, hs, hmem, hle, hall⟩ := ih x
      refine ⟨s, ?_, ?_, le_of_lt (lt_of_lt_of_le hlt hle), ?_⟩
      · simpa [pickLatest, hlt] using hs
      · rcases hmem with h | h
        · exact Or.inr (h ▸ List.mem_cons_self x xs)
        · exact Or.inr (List.mem_cons_of_mem _ h)
      · intro y hy
        rcases List.mem_cons.mp hy with h | h
        · exact h ▸ hle
        · exact hall y h
    · obtain ⟨s, hs, hmem, hle, hall⟩ := ih t
      refine ⟨s, ?_, ?_, hle, ?_⟩
      · simpa [pickLatest, hlt] using hs
      · rcases hmem with h | h
        · exact Or.inl h
        · exact Or.inr (List.mem_cons_of_mem _ h)
      · intro y hy
        rcases List.mem_cons.mp hy with h | h
        · exact h ▸ le_trans (le_of_not_lt hlt) hle
        · exact hall y h

theorem foldl_pickLatest_spec (l : List CleaningSession) :
    (l.foldl pickLatest none = none → l = []) ∧
      ∀ s, l.foldl pickLatest none = some s →
        s ∈ l ∧ ∀ x ∈ l, x.createdAt ≤ s.createdAt := by
  cases l with
  | nil => exact ⟨fun _ => rfl, by simp [List.foldl]⟩
  | cons x xs =>
    constructor
    · intro h
      obtain ⟨s, hs, _, _, _⟩ := foldl_pickLatest_some xs x
      rw [show (x :: xs).foldl pickLatest none = xs.foldl pickLatest (some x) from rfl] at h
      rw [hs] at h
      exact absurd h (by simp)
    · intro s h
      obtain ⟨s', hs, hmem, hle, hall⟩ := foldl_pickLatest_some xs x
      rw [show (x :: xs).foldl pickLatest none = xs.foldl pickLatest (some x) from rfl] at h
      rw [hs] at h
      obtain rfl : s' = s := Option.some.inj h
      constructor
      · rcases hmem with h' | h'
        · exact h' ▸ List.mem_cons_self x xs
        · exact List.mem_cons_of_mem _ h'
      · intro y hy
        rcases List.mem_cons.mp hy with h' | h'
        · exact h' ▸ hle
        · exact hall y h'

theorem patchRoomStatusHandler_ok (rooms : List Room) (id status : String) (now : Int)
    (hz : status ∈ zodRoomStatuses) (hp : status ∈ pgRoomStatuses) :
    patchRoomStatusHandler rooms id status now =
      (HttpResult.ok ((rooms.find? (fun r => r.id == id)).map
          (fun r => { r with status := status, updatedAt := now })),
        rooms.map
          (fun r => if r.id == id then { r with status := status, updatedAt := now } else r),
        [{ type := "room_status_update",
            data := WSData.roomStatus id status ((rooms.find? (fun r => r.id == id)).map
              (fun r => { r with status := status, updatedAt := now })) }]) := by
  unfold patchRoomStatusHandler dbUpdateRoomStatus
  rw [if_pos hz, if_pos hp]

theorem patchRoomStatusHandler_badZod (rooms : List Room) (id status : String) (now : Int)
    (hz : status ∉ zodRoomStatuses) :
    patchRoomStatusHandler rooms id status now = (HttpResult.badRequest, rooms, []) := by
  unfold patchRoomStatusHandler
  rw [if_neg hz]

theorem patchRoomStatusHandler_dbError (rooms : List Room) (id status : String) (now : Int)
    (hz : status ∈ zodRoomStatuses) (hp : status ∉ pgRoomStatuses) :
    patchRoomStatusHandler rooms id status now = (HttpResult.serverError, rooms, []) := by
  unfold patchRoomStatusHandler dbUpdateRoomStatus
  rw [if_pos hz, if_neg hp]

theorem patchRoomStatusRoute_allowed (claims : Option TokenClaims) (users : List User)
    (rooms : List Room) (id status : String) (now : Int) (u : User)
    (hauth : requireRole ["manager", "supervisor"] claims users = AuthDecision.allowed u) :
    patchRoomStatusRoute claims users rooms id status now =
      patchRoomStatusHandler rooms id status now := by
  unfold patchRoomStatusRoute
  rw [hauth]

theorem patchRoomStatusRoute_unauthorized (claims : Option TokenClaims) (users : List User)
    (rooms : List Room) (id status : String) (now : Int)
    (hauth : requireRole ["manager", "supervisor"] claims users = AuthDecision.unauthorized) :
    patchRoomStatusRoute claims users rooms id status now =
      (HttpResult.unauthorized, rooms, []) := by
  unfold patchRoomStatusRoute
  rw [hauth]

theorem patchRoomStatusRoute_forbidden (claims : Option TokenClaims) (users : List User)
    (rooms : List Room) (id status : String) (now : Int)
    (hauth : requireRole ["manager", "supervisor"] claims users = AuthDecision.forbidden) :
    patchRoomStatusRoute claims users rooms id status now =
      (HttpResult.forbidden, rooms, []) := by
  unfold patchRoomStatusRoute
  rw [hauth]

theorem deliveries_single (clients : List WSClient) (m : WSMessage) :
    deliveries clients [m] =
      (clients.filter fun c => c.readyState == WSReadyState.opened).map
        fun c => (c.cid, m) := by
  simp [deliveries, broadcast_eq_map_filter]

/-- C9: the permit/deny decision of `requireRole` is a function only of the
role stored in the durable user record for the resolved user id; two
requests that are identical except for the role claimed inside the
caller-supplied identity token receive the same authorization outcome. -/
theorem requireRole_ignores_token_role_claim (allowedRoles : List String)
    (users : List User) (c : TokenClaims) (r : Option String) :
    requireRole allowedRoles (some { c with role := r }) users =
      requireRole allowedRoles (some c) users := rfl

/-- C2: completing a session seals `totalTime` to the elapsed whole seconds
between `startTime` and the completion instant plus the session's
accumulated `pausedTime`, and marks the session completed with
`endTime` set to the completion instant. -/
theorem complete_seals_totalTime (st : ServerState) (s : CleaningSession) (t : Int)
    (hfind : st.sessions.find? (fun x => x.id == s.id) = some s) :
    ∃ s', (patchCleaningSessionHandler st s.id (completeRequestBody s t)).1 =
        HttpResult.ok (some s') ∧
      s'.totalTime = some (elapsedSeconds t s.startTime + s.pausedTime.getD 0) ∧
      s'.status = "completed" ∧ s'.endTime = some t := by
  refine ⟨applySessionUpdates s (completeRequestBody s t), ?_, rfl, rfl, rfl⟩
  unfold patchCleaningSessionHandler updateCleaningSession
  rw [hfind]
  rfl

/-- Witness for C2: completing the fixture session ninety seconds of wall
clock after its start seals `totalTime = 90`. -/
theorem complete_seals_totalTime_witness :
    ∃ s', (patchCleaningSessionHandler exStateActive exSessionActive.id
        (completeRequestBody exSessionActive 90000)).1 = HttpResult.ok (some s') ∧
      s'.totalTime = some (elapsedSeconds 90000 exSessionActive.startTime +
        exSessionActive.pausedTime.getD 0) ∧
      s'.status = "completed" ∧ s'.endTime = some 90000 :=
  complete_seals_totalTime exStateActive exSessionActive 90000 rfl

/-- C10: the active-session query returns only sessions of the requested
room whose status is `active` or `paused` (never `completed`), picks one
maximal in creation time, and returns nothing exactly when no such
session exists. -/
theorem activeSession_query_spec (sessions : List CleaningSession) (roomId : String) :
    (getActiveCleaningSession sessions roomId = none →
      ∀ t ∈ sessions, t.roomId = roomId →
        t.status ≠ "active" ∧ t.status ≠ "paused") ∧
    ∀ s, getActiveCleaningSession sessions roomId = some s →
      s ∈ sessions ∧ s.roomId = roomId ∧
        (s.status = "active" ∨ s.status = "paused") ∧ s.status ≠ "completed" ∧
        ∀ t ∈ sessions, t.roomId = roomId →
          (t.status = "active" ∨ t.status = "paused") → t.createdAt ≤ s.createdAt := by
  constructor
  · intro hnone t ht hroom
    unfold getActiveCleaningSession at hnone
    have hempty := (foldl_pickLatest_spec _).1 hnone
    constructor
    · intro hst
      have hmem : t ∈ sessions.filter fun s =>
          s.roomId == roomId && (s.status == "active" || s.status == "paused") := by
        rw [List.mem_filter]
        exact ⟨ht, by simp [hroom, hst]⟩
      rw [hempty] at hmem
      cases hmem
    · intro hst
      have hmem : t ∈ sessions.filter fun s =>
          s.roomId == roomId && (s.status == "active" || s.status == "paused") := by
        rw [List.mem_filter]
        exact ⟨ht, by simp [hroom, hst]⟩
      rw [hempty] at hmem
      cases hmem
  · intro s hs
    unfold getActiveCleaningSession at hs
    obtain ⟨hmem, hbound⟩ := (foldl_pickLatest_spec _).2 s hs
    rw [List.mem_filter] at hmem
    obtain ⟨hin, hpred⟩ := hmem
    have hprops : s.roomId = roomId ∧ (s.status = "active" ∨ s.status = "paused") := by
      simpa using hpred
    refine ⟨hin, hprops.1, hprops.2, ?_, ?_⟩
    · rcases hprops.2 with h | h <;> simp [h]
    · intro t ht hroom hst
      refine hbound t ?_
      rw [List.mem_filter]
      refine ⟨ht, ?_⟩
      rcases hst with h | h <;> simp [hroom, h]

/-- Witness for C10: on a list holding one active and one completed session
for room `r1`, the query returns the active one. -/
theorem activeSession_query_spec_witness :
    exSessionActive ∈ [exSessionActive] ∧ exSessionActive.roomId = "r1" ∧
      (exSessionActive.status = "active" ∨ exSessionActive.status = "paused") ∧
      exSessionActive.status ≠ "completed" ∧
      ∀ t ∈ [exSessionActive], t.roomId = "r1" →
        (t.status = "active" ∨ t.status = "paused") →
        t.createdAt ≤ exSessionActive.createdAt :=
  (activeSession_query_spec [exSessionActive] "r1").2 exSessionActive rfl

/-- C4: through the role-gated room-status route, a successful mutation
emits one event delivered to exactly the subscriptions whose socket is
open (so N deliveries for N open subscriptions, N − 1 when one of them
is closed), and a failed or forbidden mutation delivers zero events. -/
theorem broadcast_fanout_spec (claims : Option TokenClaims) (users : List User)
    (rooms : List Room) (clients : List WSClient) (id status : String) (now : Int) :
    (∀ x, (patchRoomStatusRoute claims users rooms id status now).1 = HttpResult.ok x →
      ∃ m, (patchRoomStatusRoute claims users rooms id status now).2.2 = [m] ∧
        deliveries clients [m] =
          (clients.filter fun c => c.readyState == WSReadyState.opened).map
            (fun c => (c.cid, m)) ∧
        (deliveries clients [m]).length =
          (clients.filter fun c => c.readyState == WSReadyState.opened).length) ∧
    ((∀ x, (patchRoomStatusRoute claims users rooms id status now).1 ≠ HttpResult.ok x) →
      deliveries clients (patchRoomStatusRoute claims users rooms id status now).2.2 = []) := by
  cases hauth : requireRole ["manager", "supervisor"] claims users with
  | allowed u =>
    rw [patchRoomStatusRoute_allowed claims users rooms id status now u hauth]
    by_cases hz : status ∈ zodRoomStatuses
    · by_cases hp : status ∈ pgRoomStatuses
      · rw [patchRoomStatusHandler_ok rooms id status now hz hp]
        constructor
        · intro x hx
          refine ⟨_, rfl, deliveries_single clients _, ?_⟩
          rw [deliveries_single clients _, List.length_map]
        · intro hne
          exact absurd rfl (hne _)
      · rw [patchRoomStatusHandler_dbError rooms id status now hz hp]
        exact ⟨(fun x hx => by cases hx), fun _ => rfl⟩
    · rw [patchRoomStatusHandler_badZod rooms id status now hz]
      exact ⟨(fun x hx => by cases hx), fun _ => rfl⟩
  | unauthorized =>
    rw [patchRoomStatusRoute_unauthorized claims users rooms id status now hauth]
    exact ⟨(fun x hx => by cases hx), fun _ => rfl⟩
  | forbidden =>
    rw [patchRoomStatusRoute_forbidden claims users rooms id status now hauth]
    exact ⟨(fun x hx => by cases hx), fun _ => rfl⟩

/-- Witness for C4: for the fixture set of three subscriptions (two open,
one closed), a successful manager status change is delivered exactly
twice. -/
theorem broadcast_fanout_spec_witness :
    (deliveries exClients
        (patchRoomStatusRoute (some exClaims) exUsers [exRoom] "r1" "clean" 7).2.2).length
      = 2 := by
  obtain ⟨m, hm, hdel, hlen⟩ :=
    (broadcast_fanout_spec (some exClaims) exUsers [exRoom] exClients "r1" "clean" 7).1 _ rfl
  rw [hm, hlen]
  rfl

/-- C6: a room's status always stays inside the `room_status` enum of the
schema, and a transition request whose target lies outside that enum
always fails (at zod validation or at the database enum check), mutating
nothing and emitting no event. -/
theorem roomStatus_enum_invariant (rooms : List Room) (id status : String) (now : Int)
    (hinv : ∀ r ∈ rooms, r.status ∈ pgRoomStatuses) :
    (∀ r' ∈ (patchRoomStatusHandler rooms id status now).2.1, r'.status ∈ pgRoomStatuses) ∧
    (status ∉ pgRoomStatuses →
      (∀ x, (patchRoomStatusHandler rooms id status now).1 ≠ HttpResult.ok x) ∧
      (patchRoomStatusHandler rooms id status now).2.1 = rooms ∧
      (patchRoomStatusHandler rooms id status now).2.2 = []) := by
  by_cases hz : status ∈ zodRoomStatuses
  · by_cases hp : status ∈ pgRoomStatuses
    · rw [patchRoomStatusHandler_ok rooms id status now hz hp]
      constructor
      · intro r' hr'
        rw [List.mem_map] at hr'
        obtain ⟨r, hr, rfl⟩ := hr'
        by_cases hid : (r.id == id) = true
        · rw [if_pos hid]
          exact hp
        · rw [if_neg (by simpa using hid)]
          exact hinv r hr
      · intro hns
        exact absurd hp hns
    · rw [patchRoomStatusHandler_dbError rooms id status now hz hp]
      exact ⟨fun r' hr' => hinv r' hr', fun _ => ⟨(fun x hx => by cases hx), rfl, rfl⟩⟩
  · rw [patchRoomStatusHandler_badZod rooms id status now hz]
    exact ⟨fun r' hr' => hinv r' hr', fun _ => ⟨(fun x hx => by cases hx), rfl, rfl⟩⟩

/-- Witness for C6: for the fixture room and the target `approved` (which
the zod layer accepts but the database enum rejects), the request fails
without mutation and the invariant is preserved. -/
theorem roomStatus_enum_invariant_witness :
    (∀ r' ∈ (patchRoomStatusHandler [exRoom] "r1" "approved" 7).2.1,
      r'.status ∈ pgRoomStatuses) ∧
    ("approved" ∉ pgRoomStatuses →
      (∀ x, (patchRoomStatusHandler [exRoom] "r1" "approved" 7).1 ≠ HttpResult.ok x) ∧
      (patchRoomStatusHandler [exRoom] "r1" "approved" 7).2.1 = [exRoom] ∧
      (patchRoomStatusHandler [exRoom] "r1" "approved" 7).2.2 = []) :=
  roomStatus_enum_invariant [exRoom] "r1" "approved" 7 (by decide)

theorem pg_subset_zod (s : String) (hs : s ∈ pgRoomStatuses) : s ∈ zodRoomStatuses := by
  simp only [pgRoomStatuses, List.mem_cons, List.not_mem_nil, or_false] at hs
  rcases hs with rfl | rfl | rfl | rfl | rfl <;> decide

theorem postCleaningSessionHandler_eq (st : ServerState) (body : InsertCleaningSession)
    (newId : String) (now : Int) :
    postCleaningSessionHandler st body newId now =
      (HttpResult.ok (mkSession body newId now),
        { rooms := st.rooms.map fun r =>
            if r.id == body.roomId then { r with status := "cleaning", updatedAt := now }
            else r,
          sessions := st.sessions ++ [mkSession body newId now] },
        [{ type := "timer_update",
            data := WSData.timer "start" (some (mkSession body newId now)) }]) := by
  unfold postCleaningSessionHandler startCleaningSession dbUpdateRoomStatus
  rw [if_pos (show "cleaning" ∈ pgRoomStatuses by decide)]

/-- C1 (counterexample): an active session already exists for room `r1`,
yet the start route succeeds — it returns the freshly inserted session
instead of a Conflict — leaving two non-completed sessions on the room. -/
theorem start_session_conflict_counterexample :
    getActiveCleaningSession exStateActive.sessions "r1" = some exSessionActive ∧
    (postCleaningSessionHandler exStateActive exBodyStart "s2" 1000).1 =
      HttpResult.ok (mkSession exBodyStart "s2" 1000) ∧
    ((postCleaningSessionHandler exStateActive exBodyStart "s2" 1000).2.1.sessions.filter
        fun s => s.roomId == "r1" && (s.status == "active" || s.status == "paused")).length
      = 2 :=
  ⟨rfl, rfl, rfl⟩

/-- C1 (amended): starting a cleaning session never checks for an existing
active or paused session: for every state it succeeds, inserts a session
whose `startTime` is the request's value, with `pausedTime` defaulting to
0 and status defaulting to `active`, sets the room's status to
`cleaning`, and emits one event. -/
theorem start_session_no_conflict_check (st : ServerState) (body : InsertCleaningSession)
    (newId : String) (now : Int) :
    (postCleaningSessionHandler st body newId now).1 =
        HttpResult.ok (mkSession body newId now) ∧
      (postCleaningSessionHandler st body newId now).2.1.sessions =
        st.sessions ++ [mkSession body newId now] ∧
      (mkSession body newId now).pausedTime = some (body.pausedTime.getD 0) ∧
      (mkSession body newId now).status = body.status.getD "active" ∧
      (mkSession body newId now).startTime = body.startTime ∧
      (postCleaningSessionHandler st body newId now).2.1.rooms =
        st.rooms.map (fun r =>
          if r.id == body.roomId then { r with status := "cleaning", updatedAt := now }
          else r) ∧
      (postCleaningSessionHandler st body newId now).2.2.length = 1 := by
  rw [postCleaningSessionHandler_eq]
  exact ⟨rfl, rfl, rfl, rfl, rfl, rfl, rfl⟩

/-- C5 (counterexample): a manager re-asserting the room's current status
succeeds, but the stored record does change: `updatedAt` moves to the
request instant, contradicting the claim that no field other than
`status` changes. -/
theorem idempotent_transition_counterexample :
    (patchRoomStatusRoute (some exClaims) exUsers [exRoomClean] "r1" "clean" 9999).1 =
      HttpResult.ok (some { exRoomClean with updatedAt := 9999 }) ∧
    ({ exRoomClean with updatedAt := 9999 } : Room).updatedAt ≠ exRoomClean.updatedAt :=
  ⟨rfl, by decide⟩

/-- C5 (amended): a permitted transition to the room's current status
succeeds, keeps the status value, changes no field of the room record
other than `updatedAt` (which is set to the request instant), and emits
exactly one broadcast event. -/
theorem idempotent_transition_updates_timestamp (claims : Option TokenClaims)
    (users : List User) (rooms : List Room) (id : String) (now : Int)
    (u : User) (room : Room)
    (hauth : requireRole ["manager", "supervisor"] claims users = AuthDecision.allowed u)
    (hfind : rooms.find? (fun r => r.id == id) = some room)
    (hst : room.status ∈ pgRoomStatuses) :
    (patchRoomStatusRoute claims users rooms id room.status now).1 =
        HttpResult.ok (some { room with updatedAt := now }) ∧
      (patchRoomStatusRoute claims users rooms id room.status now).2.1 =
        rooms.map (fun r =>
          if r.id == id then { r with status := room.status, updatedAt := now } else r) ∧
      (patchRoomStatusRoute claims users rooms id room.status now).2.2.length = 1 := by
  rw [patchRoomStatusRoute_allowed claims users rooms id room.status now u hauth,
    patchRoomStatusHandler_ok rooms id room.status now (pg_subset_zod room.status hst) hst]
  refine ⟨?_, rfl, rfl⟩
  rw [hfind]
  rfl

/-- Witness for C5 (amended): the manager re-asserts `clean` on the fixture
room; only `updatedAt` moves. -/
theorem idempotent_transition_updates_timestamp_witness :
    (patchRoomStatusRoute (some exClaims) exUsers [exRoomClean] "r1" exRoomClean.status 9999).1 =
        HttpResult.ok (some { exRoomClean with updatedAt := 9999 }) ∧
      (patchRoomStatusRoute (some exClaims) exUsers [exRoomClean] "r1" exRoomClean.status 9999).2.1 =
        [exRoomClean].map (fun r =>
          if r.id == "r1" then { r with status := exRoomClean.status, updatedAt := 9999 }
          else r) ∧
      (patchRoomStatusRoute (some exClaims) exUsers [exRoomClean] "r1" exRoomClean.status 9999).2.2.length
        = 1 :=
  idempotent_transition_updates_timestamp (some exClaims) exUsers [exRoomClean] "r1" 9999
    exUserManager exRoomClean rfl rfl (by decide)

/-- C7 (counterexample): a transition naming the unknown room id `zzz`
does not fail with NotFound: the route answers 200 with an undefined
room, mutates nothing, and still emits one broadcast event. -/
theorem notfound_transition_counterexample :
    (patchRoomStatusHandler [exRoom] "zzz" "clean" 7).1 = HttpResult.ok none ∧
    (patchRoomStatusHandler [exRoom] "zzz" "clean" 7).2.1 = [exRoom] ∧
    (patchRoomStatusHandler [exRoom] "zzz" "clean" 7).2.2.length = 1 :=
  ⟨rfl, rfl, rfl⟩

/-- C7 (amended): a transition request naming a room id that matches no
room, with a target inside the schema enum, succeeds with an undefined
room in the response, mutates no record, and still emits exactly one
broadcast event whose payload carries no room. -/
theorem notfound_transition_amended (rooms : List Room) (id status : String) (now : Int)
    (hp : status ∈ pgRoomStatuses) (hnone : ∀ r ∈ rooms, r.id ≠ id) :
    (patchRoomStatusHandler rooms id status now).1 = HttpResult.ok none ∧
    (patchRoomStatusHandler rooms id status now).2.1 = rooms ∧
    (patchRoomStatusHandler rooms id status now).2.2 =
      [{ type := "room_status_update", data := WSData.roomStatus id status none }] := by
  rw [patchRoomStatusHandler_ok rooms id status now (pg_subset_zod status hp) hp,
    room_find_none_of_ne rooms id hnone]
  exact ⟨rfl, roomsMap_id_of_ne rooms id status now hnone, rfl⟩

/-- Witness for C7 (amended): the fixture room list holds no room `zzz`;
the request succeeds with no room, no mutation, one event. -/
theorem notfound_transition_amended_witness :
    (patchRoomStatusHandler [exRoom] "zzz" "clean" 7).1 = HttpResult.ok none ∧
    (patchRoomStatusHandler [exRoom] "zzz" "clean" 7).2.1 = [exRoom] ∧
    (patchRoomStatusHandler [exRoom] "zzz" "clean" 7).2.2 =
      [{ type := "room_status_update", data := WSData.roomStatus "zzz" "clean" none }] :=
  notfound_transition_amended [exRoom] "zzz" "clean" 7 (by decide) (by decide)

/-- C8 (counterexample): the fixture session is already `completed`; a
second complete call succeeds (no InvalidTransition) and rewrites the
record: `endTime` and `totalTime` are overwritten. -/
theorem double_complete_counterexample :
    exSessionDone.status = "completed" ∧
    (patchCleaningSessionHandler exStateDone "s1"
        (completeRequestBody exSessionDone 200000)).1 =
      HttpResult.ok (some { exSessionDone with endTime := some 200000, totalTime := some 200 }) ∧
    ({ exSessionDone with endTime := some 200000, totalTime := some 200 } : CleaningSession)
      ≠ exSessionDone :=
  ⟨rfl, rfl, by decide⟩

/-- C8 (amended): the session-update route performs no state-machine
validation: completing a session a second time succeeds and overwrites
`endTime` and `totalTime` with freshly computed values, emitting one
event. -/
theorem double_complete_overwrites (st : ServerState) (s : CleaningSession) (t : Int)
    (hfind : st.sessions.find? (fun x => x.id == s.id) = some s) :
    (patchCleaningSessionHandler st s.id (completeRequestBody s t)).1 =
        HttpResult.ok (some { s with
          status := "completed"
          endTime := some t
          totalTime := some (clientTotalTime t s.startTime s.pausedTime) }) ∧
      (patchCleaningSessionHandler st s.id (completeRequestBody s t)).2.2.length = 1 := by
  constructor
  · unfold patchCleaningSessionHandler updateCleaningSession
    rw [hfind]
    rfl
  · rfl

/-- Witness for C8 (amended): a second complete on the already-completed
fixture session succeeds and overwrites its terminal fields. -/
theorem double_complete_overwrites_witness :
    (patchCleaningSessionHandler exStateDone exSessionDone.id
        (completeRequestBody exSessionDone 200000)).1 =
        HttpResult.ok (some { exSessionDone with
          status := "completed"
          endTime := some 200000
          totalTime := some (clientTotalTime 200000 exSessionDone.startTime
            exSessionDone.pausedTime) }) ∧
      (patchCleaningSessionHandler exStateDone exSessionDone.id
        (completeRequestBody exSessionDone 200000)).2.2.length = 1 :=
  double_complete_overwrites exStateDone exSessionDone 200000 rfl

/-- C3: for a session created by the start flow (whose body carries no
pausedTime, so the column defaults to 0 and no later request ever changes
it), start → pause → resume → complete seals a `totalTime` equal to the
elapsed whole seconds between start and completion — independent of how
long the session sat paused — and identical to the total obtained by
completing directly from `active` at the same wall-clock instant. -/
theorem pause_resume_roundtrip (st : ServerState) (body : InsertCleaningSession)
    (newId : String) (t0 tC : Int)
    (hfresh : ∀ x ∈ st.sessions, x.id ≠ newId)
    (hstart : body.startTime = t0) (hpaused : body.pausedTime = none) :
    ∀ s3 sd,
      (afterStartPauseResume st body newId t0).sessions.find? (fun x => x.id == newId)
        = some s3 →
      (postCleaningSessionHandler st body newId t0).2.1.sessions.find?
          (fun x => x.id == newId) = some sd →
      ((patchCleaningSessionHandler (afterStartPauseResume st body newId t0) newId
            (completeRequestBody s3 tC)).2.1.sessions.find? (fun x => x.id == newId)).map
          (fun s => s.totalTime)
        = some (some (elapsedSeconds tC t0)) ∧
      ((patchCleaningSessionHandler ((postCleaningSessionHandler st body newId t0).2.1) newId
            (completeRequestBody sd tC)).2.1.sessions.find? (fun x => x.id == newId)).map
          (fun s => s.totalTime)
        = some (some (elapsedSeconds tC t0)) := by
  intro s3 sd h3 hd
  have h1 : (postCleaningSessionHandler st body newId t0).2.1.sessions
      = st.sessions ++ [mkSession body newId t0] := by
    rw [postCleaningSessionHandler_eq]
  have hp2 := patch_fresh ((postCleaningSessionHandler st body newId t0).2.1)
    st.sessions (mkSession body newId t0) newId (statusOnlyUpdate "paused") h1 hfresh rfl
  have hp3 := patch_fresh _ st.sessions
    (applySessionUpdates (mkSession body newId t0) (statusOnlyUpdate "paused"))
    newId (statusOnlyUpdate "active") hp2.1 hfresh rfl
  unfold afterStartPauseResume at h3
  have hs3 : s3 = applySessionUpdates (applySessionUpdates (mkSession body newId t0)
      (statusOnlyUpdate "paused")) (statusOnlyUpdate "active") :=
    (Option.some.inj (hp3.2.symm.trans h3)).symm
  have hsd : sd = mkSession body newId t0 := by
    have hfd : (postCleaningSessionHandler st body newId t0).2.1.sessions.find?
        (fun x => x.id == newId) = some (mkSession body newId t0) := by
      rw [h1]
      exact find_append_fresh st.sessions (mkSession body newId t0) newId hfresh rfl
    exact (Option.some.inj (hfd.symm.trans hd)).symm
  subst hs3
  subst hsd
  constructor
  · have hfinal := patch_fresh (afterStartPauseResume st body newId t0) st.sessions
      (applySessionUpdates (applySessionUpdates (mkSession body newId t0)
        (statusOnlyUpdate "paused")) (statusOnlyUpdate "active"))
      newId (completeRequestBody (applySessionUpdates (applySessionUpdates
        (mkSession body newId t0) (statusOnlyUpdate "paused"))
        (statusOnlyUpdate "active")) tC)
      (by unfold afterStartPauseResume; exact hp3.1) hfresh rfl
    rw [hfinal.2]
    simp [applySessionUpdates, completeRequestBody, statusOnlyUpdate, clientTotalTime,
      mkSession, hstart, hpaused]
  · have hfinal := patch_fresh ((postCleaningSessionHandler st body newId t0).2.1)
      st.sessions (mkSession body newId t0) newId
      (completeRequestBody (mkSession body newId t0) tC) h1 hfresh rfl
    rw [hfinal.2]
    simp [applySessionUpdates, completeRequestBody, clientTotalTime, mkSession,
      hstart, hpaused]

/-- Witness for C3: starting on an empty state at second 1 and completing
at second 61 yields a sealed total of 60 seconds through the
pause/resume cycle and through the direct completion alike. -/
theorem pause_resume_roundtrip_witness :
    ((patchCleaningSessionHandler (afterStartPauseResume exStateEmpty exBodyStart "s9" 1000)
          "s9" (completeRequestBody (applySessionUpdates (applySessionUpdates
            (mkSession exBodyStart "s9" 1000) (statusOnlyUpdate "paused"))
            (statusOnlyUpdate "active")) 61000)).2.1.sessions.find?
        (fun x => x.id == "s9")).map (fun s => s.totalTime)
      = some (some 60) ∧
    ((patchCleaningSessionHandler
          ((postCleaningSessionHandler exStateEmpty exBodyStart "s9" 1000).2.1) "s9"
          (completeRequestBody (mkSession exBodyStart "s9" 1000) 61000)).2.1.sessions.find?
        (fun x => x.id == "s9")).map (fun s => s.totalTime)
      = some (some 60) :=
  pause_resume_roundtrip exStateEmpty exBodyStart "s9" 1000 61000
    (fun x hx => absurd hx (List.not_mem_nil x)) rfl rfl
    (applySessionUpdates (applySessionUpdates (mkSession exBodyStart "s9" 1000)
      (statusOnlyUpdate "paused")) (statusOnlyUpdate "active"))
    (mkSession exBodyStart "s9" 1000) rfl rfl

end HotelOps
